import Mathlib

/-!
Shallow embedding of the nest-cam-viewer server (src/Dockerfile embedded
server.js and src/server.js): the HLS slot orchestrator (`startHls`,
`stopHls`, the ffmpeg exit observer), the credential broker
(`refreshAccessToken`, `getValidToken`) and the stream grant client
(`generateStream` plus the `/api/stream` handler check).

JavaScript objects used as dictionaries (`hlsStreams`, the in-memory file
system view) are modelled as association lists with JS assignment/delete
semantics; process identities are natural numbers handed out by a counter;
sending SIGKILL is recorded in a `killed` list; time is an integer count of
milliseconds.
-/

namespace NestCam

/-! ### Association lists modelling JavaScript objects -/

def alGet {α : Type} : List (String × α) → String → Option α
  | [], _ => none
  | e :: t, k => if e.1 == k then some e.2 else alGet t k

def alDel {α : Type} : List (String × α) → String → List (String × α)
  | [], _ => []
  | e :: t, k => if e.1 == k then alDel t k else e :: alDel t k

def alSet {α : Type} (t : List (String × α)) (k : String) (v : α) :
    List (String × α) :=
  (k, v) :: alDel t k

def countKey {α : Type} : List (String × α) → String → Nat
  | [], _ => 0
  | e :: t, k => (if e.1 == k then 1 else 0) + countKey t k

/-! ### Token store (`let tokens = ...` in server.js) -/

/-- JavaScript truthiness of an optional string field: `null`/absent and the
empty string are falsy. -/
def truthyStr : Option String → Bool
  | none => false
  | some s => !(s == "")

structure Tokens where
  access_token : Option String
  refresh_token : String
  expiry : Int
deriving DecidableEq, Repr

/-- Body of the OAuth token endpoint response, as consumed by
`refreshAccessToken` (`res.body.access_token`, `res.body.expires_in`,
and a possibly present `res.body.refresh_token`). -/
structure TokenResponse where
  status : Nat
  access_token : Option String
  refresh_token : Option String
  expires_in : Int
deriving DecidableEq, Repr

/-- `refreshAccessToken()`: if `res.body.access_token` is truthy, replace the
store by `{ ...tokens, access_token, expiry: Date.now() + expires_in * 1000 }`
(the spread keeps the existing `refresh_token`); otherwise throw. -/
def refreshAccessToken (tok : Tokens) (now : Int) (res : TokenResponse) :
    Except String Tokens :=
  if truthyStr res.access_token then
    Except.ok { tok with
      access_token := res.access_token
      expiry := now + res.expires_in * 1000 }
  else
    Except.error "Token refresh failed"

/-- State-transformer view of `refreshAccessToken`: the JS function mutates
the module-level `tokens` only in the success branch; a throw leaves it as
it was. -/
def refreshAccessTokenState (tok : Tokens) (now : Int) (res : TokenResponse) :
    Tokens × Except String Unit :=
  match refreshAccessToken tok now res with
  | Except.ok t => (t, Except.ok ())
  | Except.error e => (tok, Except.error e)

/-- The refresh condition of `getValidToken`:
`!tokens.access_token || Date.now() > (tokens.expiry - 60000)`. -/
def needsRefresh (tok : Tokens) (now : Int) : Bool :=
  !truthyStr tok.access_token || decide (now > tok.expiry - 60000)

/-- `getValidToken()`. The second component counts the network refresh
requests issued by this call (0 or 1). `res` is the token endpoint
response consumed when a refresh is issued. -/
def getValidToken (store : Option Tokens) (now : Int) (res : TokenResponse) :
    Except String (Tokens × Option String) × Nat :=
  match store with
  | none => (Except.error "Not authenticated", 0)
  | some tok =>
    if needsRefresh tok now then
      match refreshAccessToken tok now res with
      | Except.ok t => (Except.ok (t, t.access_token), 1)
      | Except.error e => (Except.error e, 1)
    else
      (Except.ok (tok, tok.access_token), 0)

/-! ### File system view (one staging directory per slot) -/

/-- Directories with their file listings. -/
abbrev Fsys := List (String × List String)

/-- `fs.unlinkSync` of one name from a listing (directory listings have no
duplicate names; removal is by name). -/
def unlinkOne : List String → String → List String
  | [], _ => []
  | x :: l, f => if x == f then unlinkOne l f else x :: unlinkOne l f

/-- `if (!fs.existsSync(dir)) fs.mkdirSync(dir, { recursive: true })`. -/
def mkdirIfAbsent (fs : Fsys) (d : String) : Fsys :=
  match alGet fs d with
  | some _ => fs
  | none => alSet fs d []

/-- `fs.readdirSync(dir)` (the directory exists when called). -/
def readdir (fs : Fsys) (d : String) : List String :=
  match alGet fs d with
  | some l => l
  | none => []

def unlinkFile (fs : Fsys) (d f : String) : Fsys :=
  match alGet fs d with
  | some l => alSet fs d (unlinkOne l f)
  | none => fs

/-- `fs.readdirSync(dir).forEach(f => fs.unlinkSync(path.join(dir, f)))`:
the listing is read once, then each listed file is unlinked. -/
def clearDir (fs : Fsys) (d : String) : Fsys :=
  (readdir fs d).foldl (fun acc f => unlinkFile acc d f) fs

/-! ### Slot orchestrator (`hlsStreams`, `startHls`, `stopHls`) -/

/-- One entry of `hlsStreams`: `{ process, dir, rtspUrl, startedAt }`, with
the process handle abstracted to its spawn identity. -/
structure Slot where
  pid : Nat
  dir : String
  rtspUrl : String
  startedAt : Int
deriving DecidableEq, Repr

structure OrchState where
  table : List (String × Slot)
  killed : List Nat
  nextPid : Nat
  fsys : Fsys
deriving DecidableEq, Repr

def initialState : OrchState :=
  { table := [], killed := [], nextPid := 0, fsys := [] }

def getHlsDir (slotId : String) : String :=
  "/tmp/hls_" ++ slotId

/-- `stopHls(slotId)`: if an entry is present, `process.kill('SIGKILL')`
(recorded in `killed`) and `delete hlsStreams[slotId]`; otherwise nothing. -/
def stopHls (st : OrchState) (slotId : String) : OrchState :=
  match alGet st.table slotId with
  | some s =>
      { st with killed := s.pid :: st.killed, table := alDel st.table slotId }
  | none => st

/-- `startHls(slotId, rtspUrl)`: stop any prior slot, ensure the staging
directory exists, unlink every leftover file, spawn ffmpeg (a fresh process
identity), and register the entry. -/
def startHls (st : OrchState) (slotId rtspUrl : String) (now : Int) :
    OrchState :=
  let st1 := stopHls st slotId
  let dir := getHlsDir slotId
  let fs1 := mkdirIfAbsent st1.fsys dir
  let fs2 := clearDir fs1 dir
  let pid := st1.nextPid
  { st1 with
    fsys := fs2
    nextPid := pid + 1
    table := alSet st1.table slotId
      { pid := pid, dir := dir, rtspUrl := rtspUrl, startedAt := now } }

/-- The `ffmpeg.on('exit', ...)` observer for slot `slotId` of the process
with identity `pid`:
`if (hlsStreams[slotId]?.process === ffmpeg) delete hlsStreams[slotId]`. -/
def exitHandler (st : OrchState) (slotId : String) (pid : Nat) : OrchState :=
  match alGet st.table slotId with
  | some s =>
      if s.pid == pid then { st with table := alDel st.table slotId } else st
  | none => st

/-! ### Stream grant client (`generateStream` and the `/api/stream` check) -/

structure StreamUrls where
  rtspUrl : Option String
deriving DecidableEq, Repr

structure GrantResults where
  streamUrls : Option StreamUrls
  streamExtensionToken : Option String
  expiresAt : Option String
deriving DecidableEq, Repr

/-- Upstream device-API response as consumed by `generateStream`. -/
structure DeviceApiResponse where
  status : Nat
  results : Option GrantResults
deriving DecidableEq, Repr

/-- `generateStream(deviceId)` returns `res.body.results` without inspecting
the HTTP status. -/
def generateStream (res : DeviceApiResponse) : Option GrantResults :=
  res.results

/-- The `/api/stream` handler check `stream?.streamUrls?.rtspUrl` with JS
truthiness (absent chain or empty string is falsy). -/
def grantRtspUrl (g : Option GrantResults) : Option String :=
  match g with
  | some r =>
    match r.streamUrls with
    | some u =>
      match u.rtspUrl with
      | some s => if s == "" then none else some s
      | none => none
    | none => none
  | none => none

/-- The `/api/stream` handler: `generateStream` has either thrown
(`Except.error`) or produced `results`; a missing RTSP URL throws, caught
into a 500 response; otherwise `startHls` runs and 200 is returned. -/
def apiStream (st : OrchState) (slotId : String)
    (grant : Except String (Option GrantResults)) (now : Int) :
    OrchState × Nat :=
  match grant with
  | Except.error _ => (st, 500)
  | Except.ok g =>
    match grantRtspUrl g with
    | none => (st, 500)
    | some u => (startHls st slotId u now, 200)

/-! ### Event-loop interleaving of concurrent `getValidToken` calls -/

/-- Global state of an interleaved run: the token store plus the number of
network refresh requests issued so far. -/
structure RunState where
  store : Option Tokens
  refreshCalls : Nat
deriving DecidableEq, Repr

/-- The synchronous prefix of one `getValidToken` call: read the store and,
when the refresh condition holds, issue a network refresh request (the call
then suspends awaiting the response). Returns the state and whether this
caller went into a refresh. -/
def checkStep (rs : RunState) (now : Int) : RunState × Bool :=
  match rs.store with
  | none => (rs, false)
  | some tok =>
    if needsRefresh tok now then
      ({ rs with refreshCalls := rs.refreshCalls + 1 }, true)
    else
      (rs, false)

/-- Resumption of one suspended caller when its token endpoint response
arrives: apply `refreshAccessToken` to the current store. -/
def completeStep (rs : RunState) (now : Int) (res : TokenResponse) :
    RunState :=
  match rs.store with
  | none => rs
  | some tok =>
    match refreshAccessToken tok now res with
    | Except.ok t => { rs with store := some t }
    | Except.error _ => rs

inductive Ev where
  | check : Ev
  | complete : TokenResponse → Ev
deriving DecidableEq, Repr

/-- Run a schedule of event-loop turns. -/
def runSched (evs : List Ev) (rs : RunState) (now : Int) : RunState :=
  match evs with
  | [] => rs
  | Ev.check :: rest => runSched rest (checkStep rs now).1 now
  | Ev.complete res :: rest => runSched rest (completeStep rs now res) now

/-! ### Sample states for concrete evaluations -/

def sampleSlot : Slot :=
  { pid := 0, dir := "/tmp/hls_0", rtspUrl := "rtsp://cam/live", startedAt := 0 }

def sampleState : OrchState :=
  { table := [("0", sampleSlot)], killed := [], nextPid := 1, fsys := [] }

/-- A successful token endpoint response used in concrete runs. -/
def okTokenResponse : TokenResponse :=
  { status := 200, access_token := some "ntk", refresh_token := none,
    expires_in := 3600 }

/-- A bootstrapped store whose access token must be refreshed on first use. -/
def expiredTokens : Tokens :=
  { access_token := none, refresh_token := "rtk", expiry := 0 }

def expiredRun : RunState :=
  { store := some expiredTokens, refreshCalls := 0 }

/-! ### Lemmas about the association-list object model -/

theorem alGet_set_self {α : Type} (t : List (String × α)) (k : String)
    (v : α) : alGet (alSet t k v) k = some v := by
  simp [alGet, alSet]

theorem alGet_del_self {α : Type} (t : List (String × α)) (k : String) :
    alGet (alDel t k) k = none := by
  induction t with
  | nil => rfl
  | cons e t ih =>
    by_cases h : e.1 = k
    · simpa [alDel, beq_iff_eq, h] using ih
    · simpa [alDel, alGet, beq_iff_eq, h] using ih

theorem mem_of_alGet {α : Type} {t : List (String × α)} {k : String} {v : α}
    (h : alGet t k = some v) : (k, v) ∈ t := by
  induction t with
  | nil => simp [alGet] at h
  | cons e t ih =>
    by_cases he : e.1 = k
    · rcases e with ⟨k1, v1⟩
      simp only [alGet, beq_iff_eq] at h
      simp only at he
      rw [if_pos he] at h
      subst he
      obtain rfl : v1 = v := by simpa using h
      exact List.mem_cons_self _ _
    · simp only [alGet, beq_iff_eq, if_neg he] at h
      exact List.mem_cons_of_mem _ (ih h)

theorem mem_alDel {α : Type} {t : List (String × α)} {k : String}
    {e : String × α} (h : e ∈ alDel t k) : e ∈ t := by
  induction t with
  | nil => simp [alDel] at h
  | cons f t ih =>
    by_cases hf : f.1 = k
    · simp only [alDel, beq_iff_eq, if_pos hf] at h
      exact List.mem_cons_of_mem _ (ih h)
    · simp only [alDel, beq_iff_eq, if_neg hf] at h
      rcases List.mem_cons.mp h with rfl | h
      · exact List.mem_cons_self _ _
      · exact List.mem_cons_of_mem _ (ih h)

theorem countKey_del_self {α : Type} (t : List (String × α)) (k : String) :
    countKey (alDel t k) k = 0 := by
  induction t with
  | nil => rfl
  | cons e t ih =>
    by_cases h : e.1 = k
    · simpa [alDel, beq_iff_eq, h] using ih
    · simpa [alDel, countKey, beq_iff_eq, h] using ih

theorem countKey_set_self {α : Type} (t : List (String × α)) (k : String)
    (v : α) : countKey (alSet t k v) k = 1 := by
  simp [alSet, countKey, countKey_del_self]

theorem countKey_del_le {α : Type} (t : List (String × α)) (k q : String) :
    countKey (alDel t k) q ≤ countKey t q := by
  induction t with
  | nil => exact Nat.le_refl _
  | cons e t ih =>
    by_cases h : e.1 = k
    · simp only [alDel, beq_iff_eq, if_pos h, countKey]
      exact Nat.le_trans ih (Nat.le_add_left _ _)
    · simp only [alDel, beq_iff_eq, if_neg h, countKey]
      exact Nat.add_le_add_left ih _

theorem countKey_set_other {α : Type} (t : List (String × α)) (k q : String)
    (v : α) (h : q ≠ k) :
    countKey (alSet t k v) q = countKey (alDel t k) q := by
  have hk : ¬(k = q) := fun hkq => h hkq.symm
  simp [alSet, countKey, beq_iff_eq, hk]

/-! ### Component lemmas for the slot orchestrator -/

theorem stopHls_nextPid (st : OrchState) (A : String) :
    (stopHls st A).nextPid = st.nextPid := by
  unfold stopHls
  cases alGet st.table A <;> rfl

theorem stopHls_absent (st : OrchState) (A : String)
    (h : alGet st.table A = none) : stopHls st A = st := by
  simp [stopHls, h]

theorem stopHls_get_none (st : OrchState) (A : String) :
    alGet (stopHls st A).table A = none := by
  cases hg : alGet st.table A with
  | none => simp [stopHls, hg]
  | some s => simp [stopHls, hg, alGet_del_self]

theorem stopHls_killed_of_get (st : OrchState) (A : String) (s : Slot)
    (h : alGet st.table A = some s) :
    (stopHls st A).killed = s.pid :: st.killed := by
  simp [stopHls, h]

theorem stopHls_killed_mem (st : OrchState) (A : String) (p : Nat)
    (h : p ∈ (stopHls st A).killed) :
    p ∈ st.killed ∨ ∃ s, alGet st.table A = some s ∧ p = s.pid := by
  cases hg : alGet st.table A with
  | none =>
    rw [stopHls_absent st A hg] at h
    exact Or.inl h
  | some s =>
    rw [stopHls_killed_of_get st A s hg] at h
    rcases List.mem_cons.mp h with rfl | h
    · exact Or.inr ⟨s, rfl, rfl⟩
    · exact Or.inl h

theorem stopHls_table_mem (st : OrchState) (A : String) (e : String × Slot)
    (h : e ∈ (stopHls st A).table) : e ∈ st.table := by
  cases hg : alGet st.table A with
  | none => rw [stopHls_absent st A hg] at h; exact h
  | some s =>
    have ht : (stopHls st A).table = alDel st.table A := by
      simp [stopHls, hg]
    rw [ht] at h
    exact mem_alDel h

theorem stopHls_countKey_le (st : OrchState) (A q : String) :
    countKey (stopHls st A).table q ≤ countKey st.table q := by
  cases hg : alGet st.table A with
  | none => rw [stopHls_absent st A hg]
  | some s =>
    have ht : (stopHls st A).table = alDel st.table A := by
      simp [stopHls, hg]
    rw [ht]
    exact countKey_del_le _ _ _

theorem startHls_killed (st : OrchState) (A u : String) (t : Int) :
    (startHls st A u t).killed = (stopHls st A).killed := rfl

theorem startHls_nextPid (st : OrchState) (A u : String) (t : Int) :
    (startHls st A u t).nextPid = st.nextPid + 1 := by
  show (stopHls st A).nextPid + 1 = st.nextPid + 1
  rw [stopHls_nextPid]

theorem startHls_table (st : OrchState) (A u : String) (t : Int) :
    (startHls st A u t).table
      = alSet (stopHls st A).table A
          { pid := st.nextPid, dir := getHlsDir A, rtspUrl := u,
            startedAt := t } := by
  show alSet (stopHls st A).table A
      { pid := (stopHls st A).nextPid, dir := getHlsDir A, rtspUrl := u,
        startedAt := t } = _
  rw [stopHls_nextPid]

theorem startHls_get_self (st : OrchState) (A u : String) (t : Int) :
    alGet (startHls st A u t).table A
      = some { pid := st.nextPid, dir := getHlsDir A, rtspUrl := u,
               startedAt := t } := by
  rw [startHls_table]
  exact alGet_set_self _ _ _

theorem startHls_table_mem (st : OrchState) (A u : String) (t : Int)
    (e : String × Slot) (h : e ∈ (startHls st A u t).table) :
    e = (A, { pid := st.nextPid, dir := getHlsDir A, rtspUrl := u,
              startedAt := t }) ∨ e ∈ st.table := by
  rw [startHls_table] at h
  rcases List.mem_cons.mp h with rfl | h
  · exact Or.inl rfl
  · exact Or.inr (stopHls_table_mem st A e (mem_alDel h))

theorem startHls_killed_lt (st : OrchState) (A u : String) (t : Int)
    (h1 : ∀ e ∈ st.table, e.2.pid < st.nextPid)
    (h2 : ∀ p ∈ st.killed, p < st.nextPid) :
    ∀ p ∈ (startHls st A u t).killed, p < st.nextPid := by
  intro p hp
  rw [startHls_killed] at hp
  rcases stopHls_killed_mem st A p hp with h | ⟨s, hs, rfl⟩
  · exact h2 p h
  · exact h1 _ (mem_of_alGet hs)

theorem startHls_table_lt (st : OrchState) (A u : String) (t : Int)
    (h1 : ∀ e ∈ st.table, e.2.pid < st.nextPid) :
    ∀ e ∈ (startHls st A u t).table,
      e.2.pid < (startHls st A u t).nextPid := by
  intro e he
  rw [startHls_nextPid]
  rcases startHls_table_mem st A u t e he with rfl | h
  · exact Nat.lt_succ_self _
  · exact Nat.lt_trans (h1 e h) (Nat.lt_succ_self _)

theorem startHls_countKey_self (st : OrchState) (A u : String) (t : Int) :
    countKey (startHls st A u t).table A = 1 := by
  rw [startHls_table]
  exact countKey_set_self _ _ _

theorem startHls_countKey_le (st : OrchState) (A u : String) (t : Int)
    (q : String) (h : countKey st.table q ≤ 1) :
    countKey (startHls st A u t).table q ≤ 1 := by
  by_cases hq : q = A
  · subst hq
    exact Nat.le_of_eq (startHls_countKey_self st q u t)
  · rw [startHls_table, countKey_set_other _ _ _ _ hq]
    exact Nat.le_trans
      (Nat.le_trans (countKey_del_le _ _ _) (stopHls_countKey_le st A q)) h

/-! ### Lemmas about directory cleanup -/

theorem unlinkFile_get (fs : Fsys) (d f : String) (l : List String)
    (h : alGet fs d = some l) :
    alGet (unlinkFile fs d f) d = some (unlinkOne l f) := by
  simp [unlinkFile, h, alGet_set_self]

theorem foldl_unlink_get (files : List String) (fs : Fsys) (d : String)
    (l : List String) (h : alGet fs d = some l) :
    alGet (files.foldl (fun acc f => unlinkFile acc d f) fs) d
      = some (files.foldl (fun cur f => unlinkOne cur f) l) := by
  induction files generalizing fs l with
  | nil => simpa using h
  | cons f files ih =>
    simp only [List.foldl_cons]
    exact ih _ _ (unlinkFile_get fs d f l h)

theorem mem_unlinkOne {l : List String} {f x : String}
    (h : x ∈ unlinkOne l f) : x ∈ l ∧ x ≠ f := by
  induction l with
  | nil => simp [unlinkOne] at h
  | cons y l ih =>
    by_cases hy : y = f
    · simp only [unlinkOne, beq_iff_eq, if_pos hy] at h
      exact ⟨List.mem_cons_of_mem _ (ih h).1, (ih h).2⟩
    · simp only [unlinkOne, beq_iff_eq, if_neg hy] at h
      rcases List.mem_cons.mp h with rfl | h
      · exact ⟨List.mem_cons_self _ _, hy⟩
      · exact ⟨List.mem_cons_of_mem _ (ih h).1, (ih h).2⟩

theorem foldl_unlinkOne_nil (files l : List String)
    (h : ∀ x ∈ l, x ∈ files) :
    files.foldl (fun cur f => unlinkOne cur f) l = [] := by
  induction files generalizing l with
  | nil =>
    simp only [List.foldl_nil]
    cases l with
    | nil => rfl
    | cons x l => exact absurd (h x (List.mem_cons_self _ _)) (by simp)
  | cons f files ih =>
    simp only [List.foldl_cons]
    apply ih
    intro x hx
    have hm := mem_unlinkOne hx
    rcases List.mem_cons.mp (h x hm.1) with rfl | hxf
    · exact absurd rfl hm.2
    · exact hxf

theorem mkdirIfAbsent_get (fs : Fsys) (d : String) :
    ∃ l, alGet (mkdirIfAbsent fs d) d = some l := by
  cases hg : alGet fs d with
  | some l => exact ⟨l, by simp [mkdirIfAbsent, hg]⟩
  | none => exact ⟨[], by simp [mkdirIfAbsent, hg, alGet_set_self]⟩

theorem clearDir_get (fs : Fsys) (d : String) (l : List String)
    (h : alGet fs d = some l) : alGet (clearDir fs d) d = some [] := by
  unfold clearDir
  have hr : readdir fs d = l := by simp [readdir, h]
  rw [hr, foldl_unlink_get l fs d l h,
    foldl_unlinkOne_nil l l (fun x hx => hx)]

/-! ### Lemmas about the refresh condition -/

theorem needsRefresh_eq_false_iff (tok : Tokens) (now : Int) :
    needsRefresh tok now = false ↔
      truthyStr tok.access_token = true ∧ now ≤ tok.expiry - 60000 := by
  simp [needsRefresh, not_lt]

theorem getValidToken_count_of_refresh (tok : Tokens) (now : Int)
    (res : TokenResponse) (h : needsRefresh tok now = true) :
    (getValidToken (some tok) now res).2 = 1 := by
  simp only [getValidToken, h, if_true]
  cases refreshAccessToken tok now res <;> rfl

theorem getValidToken_cached (tok : Tokens) (now : Int)
    (res : TokenResponse) (h : needsRefresh tok now = false) :
    getValidToken (some tok) now res
      = (Except.ok (tok, tok.access_token), 0) := by
  simp [getValidToken, h]

theorem completeStep_refreshCalls (rs : RunState) (now : Int)
    (r : TokenResponse) :
    (completeStep rs now r).refreshCalls = rs.refreshCalls := by
  cases hst : rs.store with
  | none => simp [completeStep, hst]
  | some tok =>
    cases hr : refreshAccessToken tok now r with
    | ok t => simp [completeStep, hst, hr]
    | error e => simp [completeStep, hst, hr]

theorem completes_refreshCalls (resList : List TokenResponse)
    (rs : RunState) (now : Int) :
    (runSched (resList.map Ev.complete) rs now).refreshCalls
      = rs.refreshCalls := by
  induction resList generalizing rs with
  | nil => rfl
  | cons r rest ih =>
    simp only [List.map_cons, runSched]
    rw [ih, completeStep_refreshCalls]

/-! ### Claim theorems -/

/-- Claim C1: after `startHls A url1` followed by `startHls A url2`, the
slot table maps `A` to exactly one entry, bound to `url2` and to the
process spawned by the second start; the process spawned by the first
start has been sent a termination signal while the second has not; and
every slot id is registered to at most one process. -/
theorem start_replace (st : OrchState) (A u1 u2 : String) (t1 t2 : Int)
    (h1 : ∀ e ∈ st.table, e.2.pid < st.nextPid)
    (h2 : ∀ p ∈ st.killed, p < st.nextPid)
    (h3 : ∀ k, countKey st.table k ≤ 1) :
    alGet (startHls (startHls st A u1 t1) A u2 t2).table A
      = some { pid := st.nextPid + 1, dir := getHlsDir A, rtspUrl := u2,
               startedAt := t2 }
    ∧ st.nextPid ∈ (startHls (startHls st A u1 t1) A u2 t2).killed
    ∧ st.nextPid + 1 ∉ (startHls (startHls st A u1 t1) A u2 t2).killed
    ∧ countKey (startHls (startHls st A u1 t1) A u2 t2).table A = 1
    ∧ ∀ k, countKey (startHls (startHls st A u1 t1) A u2 t2).table k ≤ 1 := by
  have hget1 := startHls_get_self st A u1 t1
  have hk2 : (startHls (startHls st A u1 t1) A u2 t2).killed
      = st.nextPid :: (startHls st A u1 t1).killed := by
    rw [startHls_killed]
    exact stopHls_killed_of_get _ _ _ hget1
  refine ⟨?_, ?_, ?_, ?_, ?_⟩
  · have h := startHls_get_self (startHls st A u1 t1) A u2 t2
    rw [startHls_nextPid] at h
    exact h
  · rw [hk2]
    exact List.mem_cons_self _ _
  · rw [hk2]
    intro hmem
    rcases List.mem_cons.mp hmem with h | h
    · omega
    · have := startHls_killed_lt st A u1 t1 h1 h2 _ h
      omega
  · exact startHls_countKey_self _ _ _ _
  · intro k
    exact startHls_countKey_le _ _ _ _ _
      (startHls_countKey_le _ _ _ _ _ (h3 k))

/-- Witness for claim C1 at the empty initial state. -/
theorem start_replace_witness :
    alGet (startHls (startHls initialState "0" "u1" 1) "0" "u2" 2).table "0"
      = some { pid := 1, dir := getHlsDir "0", rtspUrl := "u2",
               startedAt := 2 }
    ∧ 0 ∈ (startHls (startHls initialState "0" "u1" 1) "0" "u2" 2).killed
    ∧ 1 ∉ (startHls (startHls initialState "0" "u1" 1) "0" "u2" 2).killed
    ∧ countKey (startHls (startHls initialState "0" "u1" 1) "0" "u2" 2).table
        "0" = 1 := by
  have h := start_replace initialState "0" "u1" "u2" 1 2
    (by intro e he; simp [initialState] at he)
    (by intro p hp; simp [initialState] at hp)
    (by intro k; simp [initialState, countKey])
  exact ⟨h.1, h.2.1, h.2.2.1, h.2.2.2.1⟩

/-- Claim C5: `stopHls` is idempotent: after one call no entry is
registered for the slot; a second call is a no-op; an absent slot makes
the call a no-op that still succeeds; and a present slot has its process
sent a termination signal and its entry removed. -/
theorem stopHls_idempotent (st : OrchState) (A : String) :
    alGet (stopHls st A).table A = none
    ∧ stopHls (stopHls st A) A = stopHls st A
    ∧ (alGet st.table A = none → stopHls st A = st)
    ∧ ∀ s, alGet st.table A = some s →
        s.pid ∈ (stopHls st A).killed
        ∧ (stopHls st A).table = alDel st.table A := by
  refine ⟨stopHls_get_none st A,
    stopHls_absent _ _ (stopHls_get_none st A),
    stopHls_absent st A, ?_⟩
  intro s hs
  constructor
  · rw [stopHls_killed_of_get st A s hs]
    exact List.mem_cons_self _ _
  · simp [stopHls, hs]

/-- Witness for claim C5 at a state with slot "0" present. -/
theorem stopHls_idempotent_witness :
    alGet sampleState.table "0" = some sampleSlot
    ∧ sampleSlot.pid ∈ (stopHls sampleState "0").killed
    ∧ (stopHls sampleState "0").table = alDel sampleState.table "0" := by
  have h := (stopHls_idempotent sampleState "0").2.2.2 sampleSlot (by decide)
  exact ⟨by decide, h.1, h.2⟩

/-- Claim C6: `startHls` (re)creates the slot staging directory and deletes
every leftover file before the new relay process writes into it: in the
state `startHls` hands to the spawned process, the directory exists and
its listing is empty, whatever stale files were seeded there. -/
theorem startHls_clears_dir (st : OrchState) (A u : String) (t : Int) :
    alGet (startHls st A u t).fsys (getHlsDir A) = some [] := by
  have hfs : (startHls st A u t).fsys
      = clearDir (mkdirIfAbsent (stopHls st A).fsys (getHlsDir A))
          (getHlsDir A) := rfl
  rw [hfs]
  obtain ⟨l, hl⟩ := mkdirIfAbsent_get (stopHls st A).fsys (getHlsDir A)
  exact clearDir_get _ _ l hl

/-- Claim C7: the exit observer removes the slot entry exactly when the
registered process is the exited one; a stale observer (slot replaced or
stopped) leaves the state unchanged; and no exit spawns a replacement or
kills anything. -/
theorem exitHandler_stale_guard (st : OrchState) (A : String) (pid : Nat) :
    (∀ s, alGet st.table A = some s → s.pid = pid →
        exitHandler st A pid = { st with table := alDel st.table A })
    ∧ (∀ s, alGet st.table A = some s → s.pid ≠ pid →
        exitHandler st A pid = st)
    ∧ (alGet st.table A = none → exitHandler st A pid = st)
    ∧ (exitHandler st A pid).killed = st.killed
    ∧ (exitHandler st A pid).nextPid = st.nextPid := by
  refine ⟨?_, ?_, ?_, ?_, ?_⟩
  · intro s hs hp
    simp [exitHandler, hs, hp]
  · intro s hs hp
    simp [exitHandler, hs, hp]
  · intro h
    simp [exitHandler, h]
  · cases hg : alGet st.table A with
    | none => simp [exitHandler, hg]
    | some s => by_cases hp : s.pid = pid <;> simp [exitHandler, hg, hp]
  · cases hg : alGet st.table A with
    | none => simp [exitHandler, hg]
    | some s => by_cases hp : s.pid = pid <;> simp [exitHandler, hg, hp]

/-- Witness for claim C7: the observer of the current process removes the
entry. -/
theorem exitHandler_stale_guard_witness :
    alGet sampleState.table "0" = some sampleSlot
    ∧ sampleSlot.pid = 0
    ∧ exitHandler sampleState "0" 0
        = { sampleState with table := alDel sampleState.table "0" } := by
  have h := (exitHandler_stale_guard sampleState "0" 0).1 sampleSlot
    (by decide) (by decide)
  exact ⟨by decide, by decide, h⟩

/-- Claim C8: when the grant request of `/api/stream` fails (the upstream
call threw, or the response carries no RTSP URL), the handler answers 500
and the orchestrator state is exactly what it was: no slot entry is
registered by that start and no process is spawned. -/
theorem apiStream_failure_isolated (st : OrchState) (slotId : String)
    (grant : Except String (Option GrantResults)) (now : Int) :
    (∀ e, grant = Except.error e → apiStream st slotId grant now = (st, 500))
    ∧ (∀ g, grant = Except.ok g → grantRtspUrl g = none →
        apiStream st slotId grant now = (st, 500)) := by
  constructor
  · intro e he
    subst he
    rfl
  · intro g hg hr
    subst hg
    simp [apiStream, hr]

/-- Witness for claim C8: a failed upstream call leaves the initial state
untouched. -/
theorem apiStream_failure_isolated_witness :
    apiStream initialState "0" (Except.error "upstream") 0
      = (initialState, 500) :=
  (apiStream_failure_isolated initialState "0"
    (Except.error "upstream") 0).1 "upstream" rfl

/-- Counterexample to claim C2 as stated: with the access token present and
`now` exactly at `expiry - margin` (expiry 60000, now 0, margin 60000),
the claim demands a refresh, but `getValidToken` issues none — the code
refreshes only when `now` is strictly past `expiry - 60000`. -/
theorem getValidToken_boundary_cex :
    (getValidToken
        (some { access_token := some "atk", refresh_token := "rtk",
                expiry := 60000 }) 0
        { status := 200, access_token := some "ntk", refresh_token := none,
          expires_in := 3600 }).2 = 0
    ∧ ¬((0 : Int) < 60000 - 60000) := by
  constructor
  · rfl
  · decide

/-- Claim C2 (amended): with the token store populated, `getValidToken`
returns the cached token with no refresh exactly when the access token is
present and `now ≤ expiry - 60000`; otherwise it issues exactly one
refresh. In particular `expiry = now + 30000` forces one refresh and
`expiry = now + 3600000` (token present) forces none. -/
theorem getValidToken_margin (tok : Tokens) (now : Int)
    (res : TokenResponse) :
    ((getValidToken (some tok) now res).2 = 0 ↔
        truthyStr tok.access_token = true ∧ now ≤ tok.expiry - 60000)
    ∧ (truthyStr tok.access_token = true → now ≤ tok.expiry - 60000 →
        getValidToken (some tok) now res
          = (Except.ok (tok, tok.access_token), 0))
    ∧ (¬(truthyStr tok.access_token = true ∧ now ≤ tok.expiry - 60000) →
        (getValidToken (some tok) now res).2 = 1)
    ∧ (getValidToken (some { tok with expiry := now + 30000 }) now res).2 = 1
    ∧ (truthyStr tok.access_token = true →
        (getValidToken (some { tok with expiry := now + 3600000 })
          now res).2 = 0) := by
  have hiff := needsRefresh_eq_false_iff tok now
  refine ⟨?_, ?_, ?_, ?_, ?_⟩
  · constructor
    · intro h0
      cases hn : needsRefresh tok now with
      | false => exact hiff.mp hn
      | true =>
        rw [getValidToken_count_of_refresh tok now res hn] at h0
        exact absurd h0 one_ne_zero
    · intro hc
      rw [getValidToken_cached tok now res (hiff.mpr hc)]
  · intro h1 h2
    exact getValidToken_cached tok now res (hiff.mpr ⟨h1, h2⟩)
  · intro hc
    cases hn : needsRefresh tok now with
    | false => exact absurd (hiff.mp hn) hc
    | true => exact getValidToken_count_of_refresh tok now res hn
  · apply getValidToken_count_of_refresh
    cases hn : needsRefresh { tok with expiry := now + 30000 } now with
    | true => rfl
    | false =>
      have h2 : now ≤ now + 30000 - 60000 :=
        ((needsRefresh_eq_false_iff { tok with expiry := now + 30000 }
          now).mp hn).2
      omega
  · intro h1
    have hfalse : needsRefresh { tok with expiry := now + 3600000 } now
        = false := by
      apply (needsRefresh_eq_false_iff { tok with expiry := now + 3600000 }
        now).mpr
      refine ⟨h1, ?_⟩
      show now ≤ now + 3600000 - 60000
      omega
    rw [getValidToken_cached { tok with expiry := now + 3600000 } now res
      hfalse]

/-- Witness for the amended claim C2: present token far from expiry is
returned cached; the 30-second-to-expiry store forces one refresh. -/
theorem getValidToken_margin_witness :
    truthyStr (some "atk") = true
    ∧ ((0 : Int) ≤ 3600000 - 60000)
    ∧ getValidToken
        (some { access_token := some "atk", refresh_token := "rtk",
                expiry := 3600000 }) 0
        { status := 200, access_token := some "ntk", refresh_token := none,
          expires_in := 3600 }
      = (Except.ok
          ({ access_token := some "atk", refresh_token := "rtk",
             expiry := 3600000 }, some "atk"), 0)
    ∧ (getValidToken
        (some { access_token := some "atk", refresh_token := "rtk",
                expiry := 0 + 30000 }) 0
        { status := 200, access_token := some "ntk", refresh_token := none,
          expires_in := 3600 }).2 = 1 := by
  have h := getValidToken_margin
    { access_token := some "atk", refresh_token := "rtk", expiry := 3600000 }
    0
    { status := 200, access_token := some "ntk", refresh_token := none,
      expires_in := 3600 }
  refine ⟨by decide, by decide, h.2.1 (by decide) (by decide), ?_⟩
  have h30 := getValidToken_margin
    { access_token := some "atk", refresh_token := "rtk", expiry := 0 }
    0
    { status := 200, access_token := some "ntk", refresh_token := none,
      expires_in := 3600 }
  exact h30.2.2.2.1

/-- Counterexample to claim C3 as stated: a non-success (HTTP 500) response
whose body carries an `access_token` and a rotated `refresh_token` makes
`refreshAccessToken` succeed (the claim demands an `AuthError`), and the
rotated refresh token is ignored — the store keeps `"oldRT"`. -/
theorem refreshAccessToken_cex :
    refreshAccessToken
        { access_token := none, refresh_token := "oldRT", expiry := 0 } 0
        { status := 500, access_token := some "newAT",
          refresh_token := some "rotRT", expires_in := 3600 }
      = Except.ok
          { access_token := some "newAT", refresh_token := "oldRT",
            expiry := 0 + 3600 * 1000 }
    ∧ ("oldRT" : String) ≠ "rotRT"
    ∧ (500 : Nat) ≠ 200 := by
  refine ⟨rfl, by decide, by decide⟩

/-- Claim C3 (amended): `refreshAccessToken` succeeds exactly when the
response body carries an access token, whatever the HTTP status; on
success it atomically replaces `access_token` and `expiry` while keeping
the stored `refresh_token` unchanged (a rotated refresh token in the
response is ignored); otherwise it fails with the refresh error. -/
theorem refreshAccessToken_behavior (tok : Tokens) (now : Int)
    (res : TokenResponse) :
    (truthyStr res.access_token = true →
        refreshAccessToken tok now res = Except.ok
          { access_token := res.access_token,
            refresh_token := tok.refresh_token,
            expiry := now + res.expires_in * 1000 })
    ∧ (truthyStr res.access_token = false →
        refreshAccessToken tok now res
          = Except.error "Token refresh failed") := by
  constructor
  · intro h
    simp [refreshAccessToken, h]
  · intro h
    simp [refreshAccessToken, h]

/-- Witness for the amended claim C3: a successful refresh stores the new
access token and expiry and keeps the old refresh token. -/
theorem refreshAccessToken_behavior_witness :
    truthyStr (some "ntk") = true
    ∧ refreshAccessToken
        { access_token := none, refresh_token := "keepRT", expiry := 0 } 5
        { status := 200, access_token := some "ntk",
          refresh_token := some "rotRT", expires_in := 2 }
      = Except.ok
          { access_token := some "ntk", refresh_token := "keepRT",
            expiry := 5 + 2 * 1000 } :=
  ⟨by decide,
    (refreshAccessToken_behavior
      { access_token := none, refresh_token := "keepRT", expiry := 0 } 5
      { status := 200, access_token := some "ntk",
        refresh_token := some "rotRT", expires_in := 2 }).1 (by decide)⟩

/-- Counterexample to claim C4 as stated: two `getValidToken` calls whose
synchronous expiry checks both run while the token is expired (before
either refresh response arrives) issue two network refreshes, not one —
the code has no in-flight coalescing. -/
theorem singleflight_cex :
    (runSched
        [Ev.check, Ev.check, Ev.complete okTokenResponse,
         Ev.complete okTokenResponse]
        expiredRun 1000000).refreshCalls = 2
    ∧ (2 : Nat) ≠ 1 := by
  refine ⟨rfl, by decide⟩

/-- Claim C4 (amended): there is no single-flight coalescing: when N
concurrent `getValidToken` calls all run their expiry check while the
cached token needs refresh, before any refresh response arrives, every
one of them issues its own network refresh — N refreshes in total. -/
theorem concurrent_refresh_count (n : Nat) (resList : List TokenResponse)
    (rs : RunState) (now : Int) (tok : Tokens)
    (hs : rs.store = some tok) (h : needsRefresh tok now = true) :
    (runSched (List.replicate n Ev.check ++ resList.map Ev.complete)
        rs now).refreshCalls
      = rs.refreshCalls + n := by
  induction n generalizing rs with
  | zero =>
    simp only [List.replicate, List.nil_append, Nat.add_zero]
    exact completes_refreshCalls resList rs now
  | succ n ih =>
    have hcheck : (checkStep rs now).1
        = { rs with refreshCalls := rs.refreshCalls + 1 } := by
      simp [checkStep, hs, h]
    have hstep : runSched
        (List.replicate (n + 1) Ev.check ++ resList.map Ev.complete) rs now
        = runSched
            (List.replicate n Ev.check ++ resList.map Ev.complete)
            (checkStep rs now).1 now := by
      rw [List.replicate_succ, List.cons_append]
      rfl
    rw [hstep, hcheck, ih { rs with refreshCalls := rs.refreshCalls + 1 } hs]
    show rs.refreshCalls + 1 + n = rs.refreshCalls + (n + 1)
    omega

/-- Witness for the amended claim C4: three expired concurrent callers
issue three refreshes. -/
theorem concurrent_refresh_count_witness :
    expiredRun.store = some expiredTokens
    ∧ needsRefresh expiredTokens 1000000 = true
    ∧ (runSched
        (List.replicate 3 Ev.check ++ [okTokenResponse].map Ev.complete)
        expiredRun 1000000).refreshCalls = 0 + 3 :=
  ⟨rfl, by decide,
    concurrent_refresh_count 3 [okTokenResponse] expiredRun 1000000
      expiredTokens rfl (by decide)⟩

/-- Counterexample to claim C9 as stated: a non-success (HTTP 500) upstream
response whose body still carries an RTSP URL is accepted — the stream
starts and the handler answers 200, where the claim demands an
`UpstreamError`; `generateStream` never inspects the status. -/
theorem generateStream_cex :
    (apiStream initialState "0"
        (Except.ok (generateStream
          { status := 500,
            results := some
              { streamUrls := some { rtspUrl := some "rtsp://cam/live" },
                streamExtensionToken := some "ext",
                expiresAt := some "e" } })) 0).2 = 200
    ∧ (500 : Nat) ≠ 200 := by
  refine ⟨rfl, by decide⟩

/-- Claim C9 (amended): `generateStream` returns the response body's
`results` without inspecting the HTTP status, so there is no
`UpstreamError` path; the only failure mode of the grant request is the
missing-RTSP-URL check in the `/api/stream` handler, which fails exactly
when the extracted results carry no truthy feed URL and otherwise starts
the relay on that URL. -/
theorem generateStream_status_blind (r : Option GrantResults) (s1 s2 : Nat)
    (st : OrchState) (slotId : String) (now : Int) :
    generateStream { status := s1, results := r }
      = generateStream { status := s2, results := r }
    ∧ generateStream { status := s1, results := r } = r
    ∧ (grantRtspUrl r = none →
        apiStream st slotId (Except.ok r) now = (st, 500))
    ∧ (∀ u, grantRtspUrl r = some u →
        apiStream st slotId (Except.ok r) now
          = (startHls st slotId u now, 200)) := by
  refine ⟨rfl, rfl, ?_, ?_⟩
  · intro h
    simp [apiStream, h]
  · intro u h
    simp [apiStream, h]

/-- Witness for the amended claim C9: a response with a feed URL starts the
relay regardless of status. -/
theorem generateStream_status_blind_witness :
    grantRtspUrl (some
        { streamUrls := some { rtspUrl := some "rtsp://cam/live" },
          streamExtensionToken := some "ext", expiresAt := some "e" })
      = some "rtsp://cam/live"
    ∧ apiStream initialState "0"
        (Except.ok (some
          { streamUrls := some { rtspUrl := some "rtsp://cam/live" },
            streamExtensionToken := some "ext", expiresAt := some "e" })) 0
      = (startHls initialState "0" "rtsp://cam/live" 0, 200) :=
  ⟨rfl,
    (generateStream_status_blind
      (some { streamUrls := some { rtspUrl := some "rtsp://cam/live" },
              streamExtensionToken := some "ext", expiresAt := some "e" })
      500 200 initialState "0" 0).2.2.2 "rtsp://cam/live" rfl⟩

/-- Claim C10: a failed refresh (response body without an access token)
leaves the token store exactly as it was — access token, refresh token and
expiry unchanged — while the error propagates. -/
theorem refresh_failure_keeps_store (tok : Tokens) (now : Int)
    (res : TokenResponse) (h : truthyStr res.access_token = false) :
    refreshAccessTokenState tok now res
      = (tok, Except.error "Token refresh failed") := by
  simp [refreshAccessTokenState, refreshAccessToken, h]

/-- Witness for claim C10: a 400 response without an access token leaves
the populated store untouched. -/
theorem refresh_failure_keeps_store_witness :
    truthyStr (none : Option String) = false
    ∧ refreshAccessTokenState
        { access_token := some "atk", refresh_token := "rtk", expiry := 99 }
        5
        { status := 400, access_token := none, refresh_token := none,
          expires_in := 0 }
      = ({ access_token := some "atk", refresh_token := "rtk",
           expiry := 99 },
         Except.error "Token refresh failed") :=
  ⟨rfl,
    refresh_failure_keeps_store
      { access_token := some "atk", refresh_token := "rtk", expiry := 99 }
      5
      { status := 400, access_token := none, refresh_token := none,
        expires_in := 0 }
      rfl⟩

end NestCam
